import Mathlib

/-!
Verification of the animated hydrological map's core engine: dataset
alignment (identifier normalization, time-indexed series store), the
resampling engine, the value-to-style mapper, and the playback scheduler.

The embedding models JavaScript numbers as `JSNum` (an exact rational
payload plus the IEEE special values `Infinity`, `-Infinity` and `NaN`,
with JavaScript's arithmetic and comparison semantics on them).
`Math.log` on a finite positive argument is abstracted by a rational
parameter `lg`; its IEEE special cases (`log ∞ = ∞`, `log 0 = -∞`,
`log x = NaN` for `x < 0`) are modelled exactly.
-/

namespace AnimatedMap

/-- A JavaScript number: a finite (exact rational) value or one of the
IEEE special values. -/
inductive JSNum where
  | num (q : ℚ)
  | posInf
  | negInf
  | nan
deriving DecidableEq, Repr

namespace JSNum

/-- JavaScript `+` on numbers. -/
def add : JSNum → JSNum → JSNum
  | nan, _ => nan
  | _, nan => nan
  | posInf, negInf => nan
  | negInf, posInf => nan
  | posInf, _ => posInf
  | _, posInf => posInf
  | negInf, _ => negInf
  | _, negInf => negInf
  | num a, num b => num (a + b)

/-- JavaScript unary `-`. -/
def neg : JSNum → JSNum
  | nan => nan
  | posInf => negInf
  | negInf => posInf
  | num a => num (-a)

/-- JavaScript binary `-`. -/
def sub (a b : JSNum) : JSNum := add a (neg b)

/-- JavaScript `*` on numbers. -/
def mul : JSNum → JSNum → JSNum
  | nan, _ => nan
  | _, nan => nan
  | posInf, posInf => posInf
  | posInf, negInf => negInf
  | negInf, posInf => negInf
  | negInf, negInf => posInf
  | posInf, num b => if 0 < b then posInf else if b < 0 then negInf else nan
  | num a, posInf => if 0 < a then posInf else if a < 0 then negInf else nan
  | negInf, num b => if 0 < b then negInf else if b < 0 then posInf else nan
  | num a, negInf => if 0 < a then negInf else if a < 0 then posInf else nan
  | num a, num b => num (a * b)

/-- JavaScript `/` on numbers (a finite zero is `+0`: the model has no
negative zero, which never arises in the code under study). -/
def div : JSNum → JSNum → JSNum
  | nan, _ => nan
  | _, nan => nan
  | posInf, posInf => nan
  | posInf, negInf => nan
  | negInf, posInf => nan
  | negInf, negInf => nan
  | num _, posInf => num 0
  | num _, negInf => num 0
  | posInf, num b => if b < 0 then negInf else posInf
  | negInf, num b => if b < 0 then posInf else negInf
  | num a, num b =>
    if b = 0 then (if 0 < a then posInf else if a < 0 then negInf else nan)
    else num (a / b)

/-- JavaScript `<=` (false whenever either side is `NaN`). -/
def le : JSNum → JSNum → Bool
  | nan, _ => false
  | _, nan => false
  | negInf, _ => true
  | posInf, posInf => true
  | posInf, _ => false
  | num _, posInf => true
  | num _, negInf => false
  | num a, num b => decide (a ≤ b)

/-- JavaScript `<` (false whenever either side is `NaN`). -/
def lt : JSNum → JSNum → Bool
  | nan, _ => false
  | _, nan => false
  | negInf, negInf => false
  | negInf, _ => true
  | posInf, _ => false
  | num _, posInf => true
  | num _, negInf => false
  | num a, num b => decide (a < b)

/-- JavaScript `>=`. -/
def ge (a b : JSNum) : Bool := le b a

/-- JavaScript `>`. -/
def gt (a b : JSNum) : Bool := lt b a

/-- JavaScript `Math.round` (half-up; identity on the special values
except `NaN`, which propagates). -/
def round : JSNum → JSNum
  | nan => nan
  | posInf => posInf
  | negInf => negInf
  | num q => num (⌊q + 1/2⌋ : ℤ)

/-- JavaScript `Math.log`. The value on a finite positive argument is
abstracted by the rational parameter `lg`; the IEEE special cases are
modelled exactly. -/
def log (lg : ℚ → ℚ) : JSNum → JSNum
  | nan => nan
  | posInf => posInf
  | negInf => nan
  | num q => if 0 < q then num (lg q) else if q = 0 then negInf else nan

/-- JavaScript number-to-string conversion, as used by template
literals, restricted to the values the mapper can produce (integers and
the special values). -/
def toStr : JSNum → String
  | nan => "NaN"
  | posInf => "Infinity"
  | negInf => "-Infinity"
  | num q => if q.den = 1 then toString q.num else toString q

end JSNum

/-- Identifier normalization, from
`const flowId = idStr.startsWith("wb-") ? idStr : ` followed by the
template literal prepending `wb-` (main.js lines 343–344). JavaScript
`String.prototype.startsWith` is modelled on the character list. -/
def jsStartsWith (s p : List Char) : Bool := decide (s.take p.length = p)

/-- `normalize(rawId)`: keep the id if it already starts with `"wb-"`,
otherwise prepend `"wb-"`. -/
def normalizeId (raw : String) : String :=
  if jsStartsWith raw.toList "wb-".toList then raw else "wb-" ++ raw

/-! ### Time-indexed series store

`processDataAndVisualize` (main.js lines 327–363) builds, per time
index, a JavaScript object mapping normalized feature id to value, and
tracks the running flow maximum (over all values) and minimum (over
strictly positive values). A time slice is modelled as an association
list with JavaScript assignment semantics (last write wins). -/

/-- JavaScript object property assignment `o[k] = v` on a slice. -/
def objSet (o : List (String × ℚ)) (k : String) (v : ℚ) : List (String × ℚ) :=
  (k, v) :: o.filter (fun p => p.1 != k)

/-- `(m && m[t] && m[t][f]) || 0`: matrix access with null checks,
missing entries resolved to 0 (main.js lines 347–348). -/
def matrixAt (m : List (List ℚ)) (t f : ℕ) : ℚ :=
  ((m[t]?).bind (fun row => row[f]?)).getD 0

/-- The per-time-slice accumulator of the build loop: the three slices
under construction and the running flow extrema. -/
structure SliceAcc where
  flowSlice : List (String × ℚ)
  velSlice : List (String × ℚ)
  depSlice : List (String × ℚ)
  maxFlowValue : JSNum
  minFlowValue : JSNum
deriving DecidableEq, Repr

/-- One iteration of the inner feature loop (main.js lines 339–362):
normalize the raw id, write the flow value (and the optional velocity
and depth values), update the running extrema. A raw id read past the
end of the id array is JavaScript `String(undefined)`. -/
def stepFeature (ids : List String) (flow : List (List ℚ))
    (vel dep : Option (List (List ℚ))) (t : ℕ) (a : SliceAcc) (f : ℕ) : SliceAcc :=
  let featureId := ids[f]?.getD "undefined"
  let flowId := normalizeId featureId
  let flowValue := matrixAt flow t f
  let flowSlice := objSet a.flowSlice flowId flowValue
  let velSlice := match vel with
    | some vm => if (vm[t]?).isSome then objSet a.velSlice flowId (matrixAt vm t f) else a.velSlice
    | none => a.velSlice
  let depSlice := match dep with
    | some dm => if (dm[t]?).isSome then objSet a.depSlice flowId (matrixAt dm t f) else a.depSlice
    | none => a.depSlice
  let maxFlowValue :=
    if JSNum.gt (JSNum.num flowValue) a.maxFlowValue then JSNum.num flowValue else a.maxFlowValue
  let minFlowValue :=
    if JSNum.lt (JSNum.num flowValue) a.minFlowValue && JSNum.gt (JSNum.num flowValue) (JSNum.num 0)
    then JSNum.num flowValue else a.minFlowValue
  { flowSlice, velSlice, depSlice, maxFlowValue, minFlowValue }

/-- The store produced by one load: the three series tables (time slice
per index) and the flow range. -/
structure Store where
  flowData : List (List (String × ℚ))
  velocityData : List (List (String × ℚ))
  depthData : List (List (String × ℚ))
  maxFlowValue : JSNum
  minFlowValue : JSNum
deriving DecidableEq, Repr

/-- One iteration of the outer time loop (main.js lines 334–363):
start fresh slices (`flowData[t] = {}`, and likewise for the optional
variables) and run the feature loop. -/
def stepTime (ids : List String) (flow : List (List ℚ))
    (vel dep : Option (List (List ℚ))) (numFeatures : ℕ) (st : Store) (t : ℕ) : Store :=
  let a0 : SliceAcc :=
    { flowSlice := [], velSlice := [], depSlice := [],
      maxFlowValue := st.maxFlowValue, minFlowValue := st.minFlowValue }
  let a := (List.range numFeatures).foldl (stepFeature ids flow vel dep t) a0
  { flowData := st.flowData ++ [a.flowSlice],
    velocityData := if vel.isSome then st.velocityData ++ [a.velSlice] else st.velocityData,
    depthData := if dep.isSome then st.depthData ++ [a.depSlice] else st.depthData,
    maxFlowValue := a.maxFlowValue, minFlowValue := a.minFlowValue }

/-- The data-processing pass of `processDataAndVisualize` (main.js
lines 327–363): reset `maxFlowValue = 0`, `minFlowValue = Infinity`,
empty tables, then the two nested loops. -/
def processData (ids : List String) (flow : List (List ℚ))
    (vel dep : Option (List (List ℚ))) (numTimes numFeatures : ℕ) : Store :=
  (List.range numTimes).foldl (stepTime ids flow vel dep numFeatures)
    { flowData := [], velocityData := [], depthData := [],
      maxFlowValue := JSNum.num 0, minFlowValue := JSNum.posInf }

/-- The lenient series lookup `table[t]?.[id] || 0` (main.js lines
547–553, hover path): 0 for a missing slice or missing id. -/
def seriesGet (table : List (List (String × ℚ))) (t : ℕ) (id : String) : ℚ :=
  match table[t]? with
  | none => 0
  | some slice => (slice.lookup id).getD 0

/-- The strict flow lookup `flowData[t][flowpathId] || 0` of
`updatePlot` (main.js line 745, part_000 line 734): a property access on
an absent time slice is a JavaScript `TypeError`. -/
def plotFlowAt (table : List (List (String × ℚ))) (t : ℕ) (id : String) : Except String ℚ :=
  match table[t]? with
  | none => Except.error "TypeError"
  | some slice => Except.ok ((slice.lookup id).getD 0)

/-! ### Resampling engine (part_000 lines 697–707) -/

/-- `slice.reduce((a, b) => a + b, 0) / slice.length`. -/
def arithMean (l : List ℚ) : ℚ := l.sum / (l.length : ℚ)

/-- The `for (let i = 0; i < data.length; i += interval)` loop of
`resampleData`, totalized by a fuel argument (the loop advances by
`interval ≥ 1` per iteration, so `data.length` fuel suffices). -/
def resampleGo (interval : ℕ) : ℕ → List ℚ → List ℚ
  | _, [] => []
  | 0, _ :: _ => []
  | fuel + 1, x :: xs => arithMean ((x :: xs).take interval) :: resampleGo interval fuel ((x :: xs).drop interval)

/-- `resampleData(data, interval)`: identity at interval 1, otherwise
block means. -/
def resampleData (data : List ℚ) (interval : ℕ) : List ℚ :=
  if interval = 1 then data else resampleGo interval data.length data

/-- The consecutive blocks of size `interval` (final block possibly
shorter) that `resampleData` averages — the specification's view of the
partition, stated for comparison with `resampleData`. -/
def listChunks (interval : ℕ) : ℕ → List ℚ → List (List ℚ)
  | _, [] => []
  | 0, _ :: _ => []
  | fuel + 1, x :: xs => (x :: xs).take interval :: listChunks interval fuel ((x :: xs).drop interval)

/-! ### Playback scheduler (main.js lines 615–648)

The scheduler is embedded as a state machine over the module-level
mutable variables together with the event-loop timer queue: `setTimeout`
allocates a fresh timer id and adds it to the pending set, `clearTimeout`
removes it, and a timer can only fire while pending. -/

/-- The index advance of one tick:
`currentTimeIndex++; if (currentTimeIndex >= timeSteps.length) currentTimeIndex = 0;`
(main.js lines 625–628). -/
def advanceIndex (numTimes i : ℕ) : ℕ :=
  if numTimes ≤ i + 1 then 0 else i + 1

/-- Scheduler state: the current index, the playing flag, the stored
timer handle `animationFrame`, the pending timers of the event loop, and
a fresh-id counter. -/
structure SchedState where
  currentTimeIndex : ℕ
  isPlaying : Bool
  animationFrame : Option ℕ
  pending : List ℕ
  nextId : ℕ
deriving DecidableEq, Repr

/-- The body of `animate()` (main.js lines 622–635): return immediately
unless playing; otherwise advance the index with wraparound and schedule
the next tick (`animationFrame = setTimeout(animate, frameDelay)`). -/
def animateBody (numTimes : ℕ) (s : SchedState) : SchedState :=
  if s.isPlaying then
    { currentTimeIndex := advanceIndex numTimes s.currentTimeIndex,
      isPlaying := s.isPlaying,
      animationFrame := some s.nextId,
      pending := s.nextId :: s.pending,
      nextId := s.nextId + 1 }
  else s

/-- `playAnimation()` (main.js lines 615–638): set `isPlaying = true`
and call `animate()` synchronously. -/
def playAnimation (numTimes : ℕ) (s : SchedState) : SchedState :=
  animateBody numTimes { s with isPlaying := true }

/-- `pauseAnimation()` (main.js lines 640–648): set `isPlaying = false`
and `clearTimeout(animationFrame)`. -/
def pauseAnimation (s : SchedState) : SchedState :=
  match s.animationFrame with
  | some id =>
    { s with isPlaying := false, pending := s.pending.filter (· != id), animationFrame := none }
  | none => { s with isPlaying := false }

/-- The event loop firing timer `id`: a cancelled (non-pending) timer is
a no-op; a pending one is consumed and runs `animate()`. -/
def fireTimer (numTimes : ℕ) (id : ℕ) (s : SchedState) : SchedState :=
  if id ∈ s.pending then
    animateBody numTimes { s with pending := s.pending.filter (· != id) }
  else s

/-! ### Value-to-style mapper

Both source versions define `getColorForFlow` and `getWidthForFlow`
(main.js lines 982–1029, part_000 lines 947–994). Each version is
embedded separately in its own namespace so the two can be compared.
`lg` abstracts the finite-positive part of `Math.log`. -/

/-- One control point of the five-stop gradient. -/
structure ColorStop where
  pos : ℚ
  r : ℚ
  g : ℚ
  b : ℚ
deriving DecidableEq, Repr

namespace MainJs

/-- The `colors` array of main.js lines 989–995. -/
def colorStops : List ColorStop :=
  [⟨0, 59, 130, 246⟩, ⟨1/4, 6, 182, 212⟩, ⟨1/2, 16, 185, 129⟩,
   ⟨3/4, 245, 158, 11⟩, ⟨1, 239, 68, 68⟩]

/-- The bracketing-pair search of main.js lines 997–1004: the first
adjacent pair with `normalized >= pos_i && normalized <= pos_{i+1}`. -/
def findStopPair (normalized : JSNum) : List ColorStop → Option (ColorStop × ColorStop)
  | c1 :: c2 :: rest =>
    if JSNum.ge normalized (JSNum.num c1.pos) && JSNum.le normalized (JSNum.num c2.pos)
    then some (c1, c2)
    else findStopPair normalized (c2 :: rest)
  | _ => none

/-- `(Math.log(value+1) - Math.log(min+1)) / (Math.log(max+1) - Math.log(min+1))`
(main.js lines 985–987 and 1024–1026). -/
def normalizedFlow (lg : ℚ → ℚ) (minFlowValue maxFlowValue value : JSNum) : JSNum :=
  JSNum.div
    (JSNum.sub (JSNum.log lg (JSNum.add value (JSNum.num 1)))
      (JSNum.log lg (JSNum.add minFlowValue (JSNum.num 1))))
    (JSNum.sub (JSNum.log lg (JSNum.add maxFlowValue (JSNum.num 1)))
      (JSNum.log lg (JSNum.add minFlowValue (JSNum.num 1))))

/-- Main.js lines 997–1018: pick the bracketing pair (falling back to
the first pair), interpolate each channel by the fractional position,
round, and render the `rgb(r, g, b)` string. -/
def colorFromNormalized (normalized : JSNum) : String :=
  let pair := (findStopPair normalized colorStops).getD
    (⟨0, 59, 130, 246⟩, ⟨1/4, 6, 182, 212⟩)
  let c1 := pair.1
  let c2 := pair.2
  let range := c2.pos - c1.pos
  let factor := JSNum.div (JSNum.sub normalized (JSNum.num c1.pos)) (JSNum.num range)
  let r := JSNum.round (JSNum.add (JSNum.num c1.r) (JSNum.mul (JSNum.num (c2.r - c1.r)) factor))
  let g := JSNum.round (JSNum.add (JSNum.num c1.g) (JSNum.mul (JSNum.num (c2.g - c1.g)) factor))
  let b := JSNum.round (JSNum.add (JSNum.num c1.b) (JSNum.mul (JSNum.num (c2.b - c1.b)) factor))
  "rgb(" ++ r.toStr ++ ", " ++ g.toStr ++ ", " ++ b.toStr ++ ")"

/-- `getColorForFlow(value)` of main.js lines 982–1019, with the module
globals `minFlowValue`/`maxFlowValue` as parameters. -/
def getColorForFlow (lg : ℚ → ℚ) (minFlowValue maxFlowValue value : JSNum) : String :=
  if JSNum.le value (JSNum.num 0) then "#94a3b8"
  else colorFromNormalized (normalizedFlow lg minFlowValue maxFlowValue value)

/-- `1 + normalized * 7` (main.js line 1028). -/
def widthFromNormalized (normalized : JSNum) : JSNum :=
  JSNum.add (JSNum.num 1) (JSNum.mul normalized (JSNum.num 7))

/-- `getWidthForFlow(value)` of main.js lines 1021–1029. -/
def getWidthForFlow (lg : ℚ → ℚ) (minFlowValue maxFlowValue value : JSNum) : JSNum :=
  if JSNum.le value (JSNum.num 0) then JSNum.num 1
  else widthFromNormalized (normalizedFlow lg minFlowValue maxFlowValue value)

end MainJs

namespace LegacyJs

/-- The `colors` array of part_000 lines 954–960. -/
def colorStops : List ColorStop :=
  [⟨0, 59, 130, 246⟩, ⟨1/4, 6, 182, 212⟩, ⟨1/2, 16, 185, 129⟩,
   ⟨3/4, 245, 158, 11⟩, ⟨1, 239, 68, 68⟩]

/-- The bracketing-pair search of part_000 lines 962–969. -/
def findStopPair (normalized : JSNum) : List ColorStop → Option (ColorStop × ColorStop)
  | c1 :: c2 :: rest =>
    if JSNum.ge normalized (JSNum.num c1.pos) && JSNum.le normalized (JSNum.num c2.pos)
    then some (c1, c2)
    else findStopPair normalized (c2 :: rest)
  | _ => none

/-- The normalized log-scaled position, part_000 lines 950–952 and
989–991. -/
def normalizedFlow (lg : ℚ → ℚ) (minFlowValue maxFlowValue value : JSNum) : JSNum :=
  JSNum.div
    (JSNum.sub (JSNum.log lg (JSNum.add value (JSNum.num 1)))
      (JSNum.log lg (JSNum.add minFlowValue (JSNum.num 1))))
    (JSNum.sub (JSNum.log lg (JSNum.add maxFlowValue (JSNum.num 1)))
      (JSNum.log lg (JSNum.add minFlowValue (JSNum.num 1))))

/-- Part_000 lines 962–983: bracketing pair with fallback, per-channel
linear interpolation, rounding, string rendering. -/
def colorFromNormalized (normalized : JSNum) : String :=
  let pair := (findStopPair normalized colorStops).getD
    (⟨0, 59, 130, 246⟩, ⟨1/4, 6, 182, 212⟩)
  let c1 := pair.1
  let c2 := pair.2
  let range := c2.pos - c1.pos
  let factor := JSNum.div (JSNum.sub normalized (JSNum.num c1.pos)) (JSNum.num range)
  let r := JSNum.round (JSNum.add (JSNum.num c1.r) (JSNum.mul (JSNum.num (c2.r - c1.r)) factor))
  let g := JSNum.round (JSNum.add (JSNum.num c1.g) (JSNum.mul (JSNum.num (c2.g - c1.g)) factor))
  let b := JSNum.round (JSNum.add (JSNum.num c1.b) (JSNum.mul (JSNum.num (c2.b - c1.b)) factor))
  "rgb(" ++ r.toStr ++ ", " ++ g.toStr ++ ", " ++ b.toStr ++ ")"

/-- `getColorForFlow(value)` of part_000 lines 947–984. -/
def getColorForFlow (lg : ℚ → ℚ) (minFlowValue maxFlowValue value : JSNum) : String :=
  if JSNum.le value (JSNum.num 0) then "#94a3b8"
  else colorFromNormalized (normalizedFlow lg minFlowValue maxFlowValue value)

/-- `1 + normalized * 7` (part_000 line 993). -/
def widthFromNormalized (normalized : JSNum) : JSNum :=
  JSNum.add (JSNum.num 1) (JSNum.mul normalized (JSNum.num 7))

/-- `getWidthForFlow(value)` of part_000 lines 986–994. -/
def getWidthForFlow (lg : ℚ → ℚ) (minFlowValue maxFlowValue value : JSNum) : JSNum :=
  if JSNum.le value (JSNum.num 0) then JSNum.num 1
  else widthFromNormalized (normalizedFlow lg minFlowValue maxFlowValue value)

end LegacyJs

/-! ### Series inspector (part_000 lines 697–707 and 722–831)

`updatePlot` reads the shared snapshot, extracts one feature's series,
resamples it client-side, and hands traces to the chart. The module
state it can see is modelled explicitly; the chart output is returned
alongside the (unchanged) state. -/

/-- `plotState` of part_000 lines 688–695. -/
structure PlotState where
  flowpathId : Option String
  visFlow : Bool
  visVelocity : Bool
  visDepth : Bool
  resampleInterval : ℕ
deriving DecidableEq, Repr

/-- The module-level mutable state visible to `updatePlot`. -/
structure GlobalState where
  timeSteps : List String
  currentTimeIndex : ℕ
  isPlaying : Bool
  flowData : List (List (String × ℚ))
  velocityData : List (List (String × ℚ))
  depthData : List (List (String × ℚ))
  plotState : PlotState
deriving DecidableEq, Repr

/-- The chart data handed to the plotting collaborator: the x values
and the (visibility-filtered) traces. -/
structure ChartData where
  times : List ℚ
  flowTrace : Option (List ℚ)
  velocityTrace : Option (List ℚ)
  depthTrace : Option (List ℚ)
deriving DecidableEq, Repr

/-- The extraction loop of part_000 lines 733–743: for each `t` under
`timeSteps.length`, a strict flow read (`flowData[t][id] || 0`) and
guarded velocity/depth reads. -/
def collectSeries (g : GlobalState) (id : String) : Except String (List ℚ × List ℚ × List ℚ) :=
  (List.range g.timeSteps.length).foldlM
    (fun acc t =>
      match g.flowData[t]? with
      | none => Except.error "TypeError"
      | some slice =>
        let fv := (slice.lookup id).getD 0
        let vs := match g.velocityData[t]? with
          | some vslice => acc.2.1 ++ [(vslice.lookup id).getD 0]
          | none => acc.2.1
        let ds := match g.depthData[t]? with
          | some dslice => acc.2.2 ++ [(dslice.lookup id).getD 0]
          | none => acc.2.2
        Except.ok (acc.1 ++ [fv], vs, ds))
    ([], [], [])

/-- `updatePlot()` of part_000 lines 722–831: no-op without a selected
feature; otherwise extract the three series, resample them client-side
at `plotState.resampleInterval`, build the x axis
(`resampledFlow.map((_, idx) => idx * interval)`), and emit the visible
traces. The returned state is the module state after the call. -/
def updatePlot (g : GlobalState) : Except String (GlobalState × Option ChartData) :=
  match g.plotState.flowpathId with
  | none => Except.ok (g, none)
  | some id =>
    match collectSeries g id with
    | Except.error e => Except.error e
    | Except.ok (flowValues, velocityValues, depthValues) =>
      let interval := g.plotState.resampleInterval
      let resampledFlow := resampleData flowValues interval
      let resampledVelocity :=
        if 0 < velocityValues.length then resampleData velocityValues interval else []
      let resampledDepth :=
        if 0 < depthValues.length then resampleData depthValues interval else []
      let times := (List.range resampledFlow.length).map (fun idx => ((idx * interval : ℕ) : ℚ))
      Except.ok (g, some
        { times,
          flowTrace := if g.plotState.visFlow then some resampledFlow else none,
          velocityTrace :=
            if g.plotState.visVelocity && 0 < resampledVelocity.length
            then some resampledVelocity else none,
          depthTrace :=
            if g.plotState.visDepth && 0 < resampledDepth.length
            then some resampledDepth else none })

/-! ## Theorems -/

/-- C1: Building the store from featureIdsGeom=["1","wb-2"],
timeAxis=["2024-01-01T00:00","2024-01-01T01:00"], flow=[[5,0],[15,3]]
yields normalized FeatureSet {"wb-1","wb-2"}, FlowRange {min:3, max:15}
(min over strictly positive values only, max over all values), and
get(flowTable, 1, "wb-1") == 15. -/
theorem load_scenario_featureset_flowrange_lookup :
    ["1", "wb-2"].map normalizeId = ["wb-1", "wb-2"] ∧
    (processData ["1", "wb-2"] [[5, 0], [15, 3]] none none 2 2).minFlowValue = JSNum.num 3 ∧
    (processData ["1", "wb-2"] [[5, 0], [15, 3]] none none 2 2).maxFlowValue = JSNum.num 15 ∧
    ((processData ["1", "wb-2"] [[5, 0], [15, 3]] none none 2 2).flowData.map
      (fun slice => slice.map Prod.fst)) = [["wb-2", "wb-1"], ["wb-2", "wb-1"]] ∧
    seriesGet (processData ["1", "wb-2"] [[5, 0], [15, 3]] none none 2 2).flowData 1 "wb-1" = 15 := by
  refine ⟨by decide, by decide, by decide, by decide, by decide⟩

/-- C8: identifier normalization is total and idempotent: `normalize`
returns a string starting with "wb-" unchanged, prepends "wb-"
otherwise, and is idempotent. -/
theorem normalize_total_idempotent (x : String) :
    (jsStartsWith x.toList "wb-".toList = true → normalizeId x = x) ∧
    (jsStartsWith x.toList "wb-".toList = false → normalizeId x = "wb-" ++ x) ∧
    normalizeId (normalizeId x) = normalizeId x := by
  refine ⟨fun h => by simp only [normalizeId, h, if_true],
    fun h => by simp only [normalizeId, h, Bool.false_eq_true, if_false], ?_⟩
  by_cases h : jsStartsWith x.toList "wb-".toList = true
  · simp only [normalizeId, h, if_true]
  · have hf : jsStartsWith x.toList "wb-".toList = false := by
      simpa using h
    have h2 : jsStartsWith ("wb-" ++ x).toList "wb-".toList = true := by
      simp [jsStartsWith]
    simp only [normalizeId, hf, Bool.false_eq_true, if_false, h2, if_true]

/-- C8 witness: both branches and idempotence at concrete inputs. -/
theorem normalize_total_idempotent_witness :
    normalizeId "1" = "wb-" ++ "1" ∧
    normalizeId "wb-2" = "wb-2" ∧
    normalizeId (normalizeId "1") = normalizeId "1" :=
  ⟨(normalize_total_idempotent "1").2.1 (by decide),
   (normalize_total_idempotent "wb-2").1 (by decide),
   (normalize_total_idempotent "1").2.2⟩

/-- The chunking recursion is empty on the empty list for any fuel. -/
theorem listChunks_nil (k fuel : ℕ) : listChunks k fuel [] = [] := by
  cases fuel <;> rfl

/-- The resampling loop computes exactly the block means of the
chunking recursion (same fuel, same stepping). -/
theorem resampleGo_eq_chunks (k : ℕ) :
    ∀ (fuel : ℕ) (l : List ℚ), resampleGo k fuel l = (listChunks k fuel l).map arithMean := by
  intro fuel
  induction fuel with
  | zero => intro l; cases l <;> rfl
  | succ n ih =>
    intro l
    cases l with
    | nil => rfl
    | cons x xs => simp [resampleGo, listChunks, ih]

/-- The chunks concatenate back to the input: they partition it. -/
theorem listChunks_flatten (k : ℕ) (hk : 1 ≤ k) :
    ∀ (fuel : ℕ) (l : List ℚ), l.length ≤ fuel → (listChunks k fuel l).flatten = l := by
  intro fuel
  induction fuel with
  | zero =>
    intro l hl
    have : l = [] := List.length_eq_zero.mp (Nat.le_zero.mp hl)
    subst this; rfl
  | succ n ih =>
    intro l hl
    cases l with
    | nil => rfl
    | cons x xs =>
      have hdrop : (List.drop k (x :: xs)).length ≤ n := by
        rw [List.length_drop]
        simp only [List.length_cons] at hl ⊢
        omega
      simp only [listChunks, List.flatten_cons, ih _ hdrop, List.take_append_drop]

/-- The number of chunks is `⌈l.length / k⌉` (as `(n + k - 1) / k`). -/
theorem listChunks_length_eq (k : ℕ) (hk : 1 ≤ k) :
    ∀ (fuel : ℕ) (l : List ℚ), l.length ≤ fuel →
      (listChunks k fuel l).length = (l.length + k - 1) / k := by
  intro fuel
  induction fuel with
  | zero =>
    intro l hl
    have : l = [] := List.length_eq_zero.mp (Nat.le_zero.mp hl)
    subst this
    simp [listChunks_nil, Nat.div_eq_of_lt (show k - 1 < k by omega)]
  | succ n ih =>
    intro l hl
    cases l with
    | nil => simp [Nat.div_eq_of_lt (show k - 1 < k by omega), listChunks_nil]
    | cons x xs =>
      have hdrop : (List.drop k (x :: xs)).length ≤ n := by
        rw [List.length_drop]
        simp only [List.length_cons] at hl ⊢
        omega
      simp only [listChunks, List.length_cons, ih _ hdrop, List.length_drop]
      rw [show xs.length + 1 + k - 1 = xs.length + k by omega]
      rw [Nat.add_div_right _ (show 0 < k by omega)]
      rcases le_or_lt k (xs.length + 1) with hkn | hnk
      · rw [show xs.length + 1 - k + k - 1 = xs.length by omega]
      · rw [show xs.length + 1 - k = 0 by omega]
        rw [Nat.div_eq_of_lt (show 0 + k - 1 < k by omega),
          Nat.div_eq_of_lt (show xs.length < k by omega)]

/-- Every chunk is nonempty and no longer than the interval. -/
theorem listChunks_block_bounds (k : ℕ) (hk : 1 ≤ k) :
    ∀ (fuel : ℕ) (l : List ℚ), l.length ≤ fuel →
      ∀ b ∈ listChunks k fuel l, b ≠ [] ∧ b.length ≤ k := by
  intro fuel
  induction fuel with
  | zero =>
    intro l hl
    have : l = [] := List.length_eq_zero.mp (Nat.le_zero.mp hl)
    subst this; intro b hb; simp [listChunks_nil] at hb
  | succ n ih =>
    intro l hl
    cases l with
    | nil => intro b hb; simp [listChunks_nil] at hb
    | cons x xs =>
      have hdrop : (List.drop k (x :: xs)).length ≤ n := by
        rw [List.length_drop]
        simp only [List.length_cons] at hl ⊢
        omega
      intro b hb
      simp only [listChunks, List.mem_cons] at hb
      rcases hb with hb | hb
      · subst hb
        constructor
        · cases k with
          | zero => omega
          | succ m => simp [List.take]
        · rw [List.length_take]
          exact min_le_left _ _
      · exact ih _ hdrop b hb

/-- Every chunk except possibly the last has length exactly the
interval. -/
theorem listChunks_dropLast_full (k : ℕ) (hk : 1 ≤ k) :
    ∀ (fuel : ℕ) (l : List ℚ), l.length ≤ fuel →
      ∀ b ∈ (listChunks k fuel l).dropLast, b.length = k := by
  intro fuel
  induction fuel with
  | zero =>
    intro l hl
    have : l = [] := List.length_eq_zero.mp (Nat.le_zero.mp hl)
    subst this; intro b hb; simp [listChunks_nil] at hb
  | succ n ih =>
    intro l hl
    cases l with
    | nil => intro b hb; simp [listChunks_nil] at hb
    | cons x xs =>
      have hdrop : (List.drop k (x :: xs)).length ≤ n := by
        rw [List.length_drop]
        simp only [List.length_cons] at hl ⊢
        omega
      intro b hb
      simp only [listChunks] at hb
      rcases hrest : listChunks k n (List.drop k (x :: xs)) with _ | ⟨c, cs⟩
      · rw [hrest, List.dropLast_single] at hb
        simp at hb
      · rw [hrest, List.dropLast_cons₂] at hb
        rcases List.mem_cons.mp hb with hb | hb
        · subst hb
          have hne : List.drop k (x :: xs) ≠ [] := by
            intro hnil
            rw [hnil, listChunks_nil] at hrest
            exact List.noConfusion hrest
          have hlen : k < (x :: xs).length := by
            by_contra hcon
            exact hne (List.drop_eq_nil_of_le (by omega))
          rw [List.length_take]
          omega
        · rw [← hrest] at hb
          exact ih _ hdrop b hb

/-- At interval 1 the chunk means reproduce the input. -/
theorem listChunks_one_map_mean :
    ∀ (fuel : ℕ) (l : List ℚ), l.length ≤ fuel →
      (listChunks 1 fuel l).map arithMean = l := by
  intro fuel
  induction fuel with
  | zero =>
    intro l hl
    have : l = [] := List.length_eq_zero.mp (Nat.le_zero.mp hl)
    subst this; rfl
  | succ n ih =>
    intro l hl
    cases l with
    | nil => rfl
    | cons x xs =>
      have hx : arithMean [x] = x := by
        simp [arithMean]
      simp only [listChunks, List.take_succ_cons, List.take_zero, List.drop_succ_cons,
        List.drop_zero, List.map_cons, hx]
      rw [ih xs (by simp only [List.length_cons] at hl; omega)]

/-- C2: `resample(s, 1)` is the identity; for `k ≥ 1`, `resample(s, k)`
is the list of arithmetic means of the consecutive size-`k` blocks of
`s` (the blocks partition `s`, all blocks but possibly the last have
length exactly `k`), its length is `⌈len(s)/k⌉`, and in particular
`resample([10,20,30,40], 2) = [15, 35]`. -/
theorem resample_identity_blocks_length (s : List ℚ) (k : ℕ) (hk : 1 ≤ k) :
    resampleData s 1 = s ∧
    resampleData s k = (listChunks k s.length s).map arithMean ∧
    (listChunks k s.length s).flatten = s ∧
    (∀ b ∈ listChunks k s.length s, b ≠ [] ∧ b.length ≤ k) ∧
    (∀ b ∈ (listChunks k s.length s).dropLast, b.length = k) ∧
    (resampleData s k).length = (s.length + k - 1) / k ∧
    resampleData [10, 20, 30, 40] 2 = [15, 35] := by
  have hmap : resampleData s k = (listChunks k s.length s).map arithMean := by
    by_cases hk1 : k = 1
    · subst hk1
      rw [show resampleData s 1 = s from by simp [resampleData]]
      exact (listChunks_one_map_mean s.length s le_rfl).symm
    · rw [show resampleData s k = resampleGo k s.length s from by
        simp [resampleData, hk1]]
      exact resampleGo_eq_chunks k s.length s
  refine ⟨by simp [resampleData], hmap, listChunks_flatten k hk s.length s le_rfl,
    listChunks_block_bounds k hk s.length s le_rfl,
    listChunks_dropLast_full k hk s.length s le_rfl, ?_, ?_⟩
  · rw [hmap, List.length_map]
    exact listChunks_length_eq k hk s.length s le_rfl
  · norm_num [resampleData, resampleGo, arithMean]

/-- C2 witness: the full statement at s=[10,20,30,40], k=2. -/
theorem resample_identity_blocks_length_witness :
    resampleData [10, 20, 30, 40] 2 = (listChunks 2 4 [10, 20, 30, 40]).map arithMean ∧
    (resampleData [10, 20, 30, 40] 2).length = (4 + 2 - 1) / 2 ∧
    resampleData [10, 20, 30, 40] 2 = [15, 35] := by
  have h := resample_identity_blocks_length [10, 20, 30, 40] 2 (by norm_num)
  exact ⟨by simpa using h.2.1, by simpa using h.2.2.2.2.2.1, h.2.2.2.2.2.2⟩

/-- C6: while playing, a scheduler tick advances `currentTimeIndex` to
`(currentTimeIndex + 1) mod numTimes` — wraparound, never clamping — so
the index stays in `[0, numTimes-1]`. -/
theorem tick_wraparound (numTimes : ℕ) (s : SchedState)
    (hn : 1 ≤ numTimes) (hp : s.isPlaying = true) (hi : s.currentTimeIndex < numTimes) :
    (animateBody numTimes s).currentTimeIndex = (s.currentTimeIndex + 1) % numTimes ∧
    (animateBody numTimes s).currentTimeIndex < numTimes := by
  have h : (animateBody numTimes s).currentTimeIndex = advanceIndex numTimes s.currentTimeIndex := by
    simp [animateBody, hp]
  rw [h]
  unfold advanceIndex
  rcases lt_or_ge (s.currentTimeIndex + 1) numTimes with hlt | hge
  · rw [if_neg (by omega), Nat.mod_eq_of_lt hlt]
    exact ⟨rfl, hlt⟩
  · have heq : s.currentTimeIndex + 1 = numTimes := by omega
    rw [if_pos (by omega)]
    exact ⟨by rw [heq, Nat.mod_self], by omega⟩

/-- C6 witness: with numTimes=3 and currentIndex=2 a tick yields index
0, not 3. -/
theorem tick_wraparound_witness :
    (animateBody 3 ⟨2, true, none, [], 0⟩).currentTimeIndex = (2 + 1) % 3 ∧
    (animateBody 3 ⟨2, true, none, [], 0⟩).currentTimeIndex < 3 :=
  tick_wraparound 3 ⟨2, true, none, [], 0⟩ (by decide) (by decide) (by decide)

/-- C7: pausing deterministically cancels the pending tick: in a run
`play(); pause()` with the pause before the scheduled delay elapses, the
moment the delay would have elapsed (the timer firing) leaves
`currentTimeIndex` exactly where pause left it — no stale tick advances
it. -/
theorem pause_cancels_pending_tick (numTimes id : ℕ) (s : SchedState) :
    (fireTimer numTimes id (pauseAnimation (playAnimation numTimes s))).currentTimeIndex =
      (pauseAnimation (playAnimation numTimes s)).currentTimeIndex := by
  have hnp : (pauseAnimation (playAnimation numTimes s)).isPlaying = false := by
    unfold pauseAnimation
    cases h : (playAnimation numTimes s).animationFrame <;> simp [h]
  unfold fireTimer
  by_cases hmem : id ∈ (pauseAnimation (playAnimation numTimes s)).pending
  · simp only [hmem, if_pos]
    unfold animateBody
    simp [hnp]
  · simp [hmem]

/-- C10: the value-to-style mappers of the two source versions are
extensionally equal: for every log model, flow range and value, both
`getColorForFlow` versions return the same color string and both
`getWidthForFlow` versions the same width. -/
theorem style_mappers_extensionally_equal (lg : ℚ → ℚ) (mn mx v : JSNum) :
    MainJs.getColorForFlow lg mn mx v = LegacyJs.getColorForFlow lg mn mx v ∧
    MainJs.getWidthForFlow lg mn mx v = LegacyJs.getWidthForFlow lg mn mx v :=
  ⟨rfl, rfl⟩

/-- C5 counterexample: the flow lookup used by `updatePlot`
(`flowData[t][flowpathId] || 0`, main.js line 745) raises a TypeError —
and in particular does not return 0 — when the time slice is absent
(here: empty table, t = 0), refuting "returns 0 whenever the table is
empty … and never raises" for that cited lookup. -/
theorem plot_lookup_raises_on_missing_slice :
    plotFlowAt [] 0 "wb-1" = Except.error "TypeError" ∧
    plotFlowAt [] 0 "wb-1" ≠ Except.ok 0 := by
  exact ⟨rfl, by simp [plotFlowAt]⟩

/-- C5 (amended): the optional-chained lookup of the hover path
(`flowData[t]?.[id] || 0`) is total — 0 for an empty table, a missing
time slice, or a missing id. The unguarded flow lookup of `updatePlot`
returns the same lenient value only when the time slice is present, and
raises a TypeError when it is absent. -/
theorem series_lookup_lenient (table : List (List (String × ℚ))) (t : ℕ) (id : String) :
    (table = [] → seriesGet table t id = 0) ∧
    (table[t]? = none → seriesGet table t id = 0) ∧
    (∀ slice, table[t]? = some slice → slice.lookup id = none → seriesGet table t id = 0) ∧
    (∀ slice, table[t]? = some slice →
      plotFlowAt table t id = Except.ok ((slice.lookup id).getD 0)) ∧
    (table[t]? = none → plotFlowAt table t id = Except.error "TypeError") := by
  refine ⟨?_, ?_, ?_, ?_, ?_⟩
  · intro h; subst h; rfl
  · intro h; simp [seriesGet, h]
  · intro slice h1 h2; simp [seriesGet, h1, h2]
  · intro slice h1; simp [plotFlowAt, h1]
  · intro h; simp [plotFlowAt, h]

/-- C5 witness: the lenient lookup at concrete inputs — missing slice,
missing id, and the strict lookup on a present slice. -/
theorem series_lookup_lenient_witness :
    seriesGet [[("wb-1", (7:ℚ))]] 3 "wb-1" = 0 ∧
    seriesGet [[("wb-1", (7:ℚ))]] 0 "wb-9" = 0 ∧
    plotFlowAt [[("wb-1", (7:ℚ))]] 0 "wb-9" = Except.ok 0 ∧
    plotFlowAt [[("wb-1", (7:ℚ))]] 3 "wb-1" = Except.error "TypeError" :=
  ⟨(series_lookup_lenient [[("wb-1", 7)]] 3 "wb-1").2.1 (by decide),
   (series_lookup_lenient [[("wb-1", 7)]] 0 "wb-9").2.2.1 [("wb-1", 7)] (by decide) (by decide),
   (series_lookup_lenient [[("wb-1", 7)]] 0 "wb-9").2.2.2.1 [("wb-1", 7)] (by decide),
   (series_lookup_lenient [[("wb-1", 7)]] 3 "wb-1").2.2.2.2 (by decide)⟩

/-- The bracketing-pair search finds no pair for `NaN` (all comparisons
with `NaN` are false). -/
theorem findStopPair_nan (stops : List ColorStop) :
    MainJs.findStopPair JSNum.nan stops = none := by
  induction stops with
  | nil => rfl
  | cons c rest ih =>
    cases rest with
    | nil => rfl
    | cons c2 rest2 => simpa [MainJs.findStopPair, JSNum.ge, JSNum.le] using ih

/-- `colorFromNormalized` at `NaN`: the fallback pair is used and every
channel is `NaN`. -/
theorem colorFromNormalized_nan :
    MainJs.colorFromNormalized JSNum.nan = "rgb(NaN, NaN, NaN)" := by
  norm_num [MainJs.colorFromNormalized, findStopPair_nan, JSNum.sub, JSNum.neg, JSNum.add,
    JSNum.mul, JSNum.div, JSNum.round, JSNum.toStr]
  rfl

/-- `colorFromNormalized` at `+∞`: the fallback pair is used, the
factor is `+∞`, and the channels saturate to signed infinities. -/
theorem colorFromNormalized_posInf :
    MainJs.colorFromNormalized JSNum.posInf = "rgb(-Infinity, Infinity, -Infinity)" := by
  norm_num [MainJs.colorFromNormalized, MainJs.findStopPair, MainJs.colorStops,
    JSNum.ge, JSNum.le, JSNum.sub, JSNum.neg, JSNum.add, JSNum.mul, JSNum.div,
    JSNum.round, JSNum.toStr]
  rfl

/-- `colorFromNormalized` at `-∞`: the fallback pair is used, the
factor is `-∞`, and the channels saturate to signed infinities. -/
theorem colorFromNormalized_negInf :
    MainJs.colorFromNormalized JSNum.negInf = "rgb(Infinity, -Infinity, Infinity)" := by
  norm_num [MainJs.colorFromNormalized, MainJs.findStopPair, MainJs.colorStops,
    JSNum.ge, JSNum.le, JSNum.sub, JSNum.neg, JSNum.add, JSNum.mul, JSNum.div,
    JSNum.round, JSNum.toStr]
  rfl

/-- The width formula at the three non-finite normalized values. -/
theorem widthFromNormalized_special :
    MainJs.widthFromNormalized JSNum.nan = JSNum.nan ∧
    MainJs.widthFromNormalized JSNum.posInf = JSNum.posInf ∧
    MainJs.widthFromNormalized JSNum.negInf = JSNum.negInf := by
  refine ⟨rfl, ?_, ?_⟩ <;>
    norm_num [MainJs.widthFromNormalized, JSNum.mul, JSNum.add]

/-- With `minFlowValue = maxFlowValue = m` (finite, positive) and a
finite positive value `v`, the normalized position is `0/0 = NaN` when
`lg(v+1) = lg(m+1)` (in particular when `v = m`), and `±∞` otherwise. -/
theorem normalizedFlow_degenerate (lg : ℚ → ℚ) (m v : ℚ) (hm : 0 < m) (hv : 0 < v) :
    MainJs.normalizedFlow lg (JSNum.num m) (JSNum.num m) (JSNum.num v) =
      (if 0 < lg (v + 1) - lg (m + 1) then JSNum.posInf
       else if lg (v + 1) - lg (m + 1) < 0 then JSNum.negInf
       else JSNum.nan) := by
  have hm1 : (0:ℚ) < m + 1 := by linarith
  have hv1 : (0:ℚ) < v + 1 := by linarith
  simp only [MainJs.normalizedFlow, JSNum.add, JSNum.log, if_pos hm1, if_pos hv1,
    JSNum.sub, JSNum.neg, JSNum.div, sub_self]
  rw [show lg (v + 1) + -lg (m + 1) = lg (v + 1) - lg (m + 1) by ring,
    show lg (m + 1) + -lg (m + 1) = 0 by ring]
  simp

/-- C3 counterexample: with FlowRange {min: 3, max: 3} and value 3 > 0
(any log model — the result does not depend on it), `getColorForFlow`
returns "rgb(NaN, NaN, NaN)", not the top control-point red, and
`getWidthForFlow` returns `NaN`, not 8. -/
theorem degenerate_range_counterexample :
    MainJs.getColorForFlow (fun _ => 0) (JSNum.num 3) (JSNum.num 3) (JSNum.num 3) =
      "rgb(NaN, NaN, NaN)" ∧
    MainJs.getColorForFlow (fun _ => 0) (JSNum.num 3) (JSNum.num 3) (JSNum.num 3) ≠
      "rgb(239, 68, 68)" ∧
    MainJs.getWidthForFlow (fun _ => 0) (JSNum.num 3) (JSNum.num 3) (JSNum.num 3) = JSNum.nan ∧
    MainJs.getWidthForFlow (fun _ => 0) (JSNum.num 3) (JSNum.num 3) (JSNum.num 3) ≠
      JSNum.num 8 := by
  refine ⟨?_, ?_, ?_, ?_⟩ <;>
    norm_num [MainJs.getColorForFlow, MainJs.getWidthForFlow, MainJs.colorFromNormalized,
      MainJs.widthFromNormalized, MainJs.normalizedFlow, MainJs.findStopPair, MainJs.colorStops,
      JSNum.ge, JSNum.le, JSNum.log, JSNum.sub, JSNum.neg, JSNum.add, JSNum.mul, JSNum.div,
      JSNum.round, JSNum.toStr] <;> decide

/-- C3 (amended): with a degenerate range `max = min = m > 0` the code
does not treat normalized as 1.0: for every finite value `v > 0` the
normalized position is `NaN` or `±∞`, the color is one of the three
non-finite channel strings — never the top control-point red — and the
width is `NaN` or `±∞` — never 8. When `v = m`, color and width are
exactly the `NaN` outcomes. -/
theorem degenerate_range_styles (lg : ℚ → ℚ) (m v : ℚ) (hm : 0 < m) (hv : 0 < v) :
    (MainJs.getColorForFlow lg (JSNum.num m) (JSNum.num m) (JSNum.num v) = "rgb(NaN, NaN, NaN)" ∨
     MainJs.getColorForFlow lg (JSNum.num m) (JSNum.num m) (JSNum.num v) =
       "rgb(-Infinity, Infinity, -Infinity)" ∨
     MainJs.getColorForFlow lg (JSNum.num m) (JSNum.num m) (JSNum.num v) =
       "rgb(Infinity, -Infinity, Infinity)") ∧
    MainJs.getColorForFlow lg (JSNum.num m) (JSNum.num m) (JSNum.num v) ≠ "rgb(239, 68, 68)" ∧
    (MainJs.getWidthForFlow lg (JSNum.num m) (JSNum.num m) (JSNum.num v) = JSNum.nan ∨
     MainJs.getWidthForFlow lg (JSNum.num m) (JSNum.num m) (JSNum.num v) = JSNum.posInf ∨
     MainJs.getWidthForFlow lg (JSNum.num m) (JSNum.num m) (JSNum.num v) = JSNum.negInf) ∧
    MainJs.getWidthForFlow lg (JSNum.num m) (JSNum.num m) (JSNum.num v) ≠ JSNum.num 8 ∧
    (v = m →
      MainJs.getColorForFlow lg (JSNum.num m) (JSNum.num m) (JSNum.num v) = "rgb(NaN, NaN, NaN)" ∧
      MainJs.getWidthForFlow lg (JSNum.num m) (JSNum.num m) (JSNum.num v) = JSNum.nan) := by
  have hle : JSNum.le (JSNum.num v) (JSNum.num 0) = false := by
    simp [JSNum.le, not_le.mpr hv]
  have hcol : MainJs.getColorForFlow lg (JSNum.num m) (JSNum.num m) (JSNum.num v) =
      MainJs.colorFromNormalized (MainJs.normalizedFlow lg (JSNum.num m) (JSNum.num m) (JSNum.num v)) := by
    simp [MainJs.getColorForFlow, hle]
  have hwid : MainJs.getWidthForFlow lg (JSNum.num m) (JSNum.num m) (JSNum.num v) =
      MainJs.widthFromNormalized (MainJs.normalizedFlow lg (JSNum.num m) (JSNum.num m) (JSNum.num v)) := by
    simp [MainJs.getWidthForFlow, hle]
  rw [hcol, hwid, normalizedFlow_degenerate lg m v hm hv]
  rcases lt_trichotomy (lg (v + 1) - lg (m + 1)) 0 with hd | hd | hd
  · rw [if_neg (by linarith), if_pos hd]
    refine ⟨Or.inr (Or.inr colorFromNormalized_negInf),
      by rw [colorFromNormalized_negInf]; decide,
      Or.inr (Or.inr widthFromNormalized_special.2.2),
      by rw [widthFromNormalized_special.2.2]; decide, ?_⟩
    intro hvm
    rw [hvm] at hd
    simp at hd
  · rw [hd]
    rw [if_neg (by norm_num), if_neg (by norm_num)]
    exact ⟨Or.inl colorFromNormalized_nan,
      by rw [colorFromNormalized_nan]; decide,
      Or.inl widthFromNormalized_special.1,
      by rw [widthFromNormalized_special.1]; decide,
      fun _ => ⟨colorFromNormalized_nan, widthFromNormalized_special.1⟩⟩
  · rw [if_pos hd]
    refine ⟨Or.inr (Or.inl colorFromNormalized_posInf),
      by rw [colorFromNormalized_posInf]; decide,
      Or.inr (Or.inl widthFromNormalized_special.2.1),
      by rw [widthFromNormalized_special.2.1]; decide, ?_⟩
    intro hvm
    rw [hvm] at hd
    simp at hd

/-- C3 witness: the amended statement applied at lg := (fun _ => 0),
m = 3, v = 3. -/
theorem degenerate_range_styles_witness :
    (0:ℚ) < 3 ∧
    MainJs.getColorForFlow (fun _ => 0) (JSNum.num 3) (JSNum.num 3) (JSNum.num 3) ≠
      "rgb(239, 68, 68)" ∧
    MainJs.getWidthForFlow (fun _ => 0) (JSNum.num 3) (JSNum.num 3) (JSNum.num 3) = JSNum.nan :=
  ⟨by norm_num,
   (degenerate_range_styles (fun _ => 0) 3 3 (by norm_num) (by norm_num)).2.1,
   ((degenerate_range_styles (fun _ => 0) 3 3 (by norm_num) (by norm_num)).2.2.2.2 rfl).2⟩

/-- With no features per time step, the outer loop never touches the
running extrema. -/
theorem foldl_stepTime_zero_features_extrema (ids : List String) (flow : List (List ℚ))
    (vel dep : Option (List (List ℚ))) :
    ∀ (ts : List ℕ) (st : Store),
      (ts.foldl (stepTime ids flow vel dep 0) st).maxFlowValue = st.maxFlowValue ∧
      (ts.foldl (stepTime ids flow vel dep 0) st).minFlowValue = st.minFlowValue := by
  intro ts
  induction ts with
  | nil => intro st; exact ⟨rfl, rfl⟩
  | cons t ts ih =>
    intro st
    have hstep : (stepTime ids flow vel dep 0 st t).maxFlowValue = st.maxFlowValue ∧
        (stepTime ids flow vel dep 0 st t).minFlowValue = st.minFlowValue := by
      simp [stepTime]
    rcases ih (stepTime ids flow vel dep 0 st t) with ⟨h1, h2⟩
    exact ⟨by rw [List.foldl_cons, h1, hstep.1], by rw [List.foldl_cons, h2, hstep.2]⟩

/-- With an empty range (`min = +∞`, `max = 0`) and a finite positive
value, the normalized position is `-∞ / -∞ = NaN`. -/
theorem normalizedFlow_empty_range (lg : ℚ → ℚ) (q : ℚ) (hq : 0 < q) :
    MainJs.normalizedFlow lg JSNum.posInf (JSNum.num 0) (JSNum.num q) = JSNum.nan := by
  have hq1 : (0:ℚ) < q + 1 := by linarith
  norm_num [MainJs.normalizedFlow, JSNum.add, JSNum.log, hq1, JSNum.sub, JSNum.neg, JSNum.div]

/-- C4 counterexample: with the empty-dataset FlowRange
{min: +∞, max: 0} and value 5 (any log model), the mapper returns
"rgb(NaN, NaN, NaN)" and width NaN — not the neutral color "#94a3b8"
and width 1 the claim requires for every value. -/
theorem empty_dataset_not_neutral_counterexample :
    MainJs.getColorForFlow (fun _ => 0) JSNum.posInf (JSNum.num 0) (JSNum.num 5) =
      "rgb(NaN, NaN, NaN)" ∧
    MainJs.getColorForFlow (fun _ => 0) JSNum.posInf (JSNum.num 0) (JSNum.num 5) ≠ "#94a3b8" ∧
    MainJs.getWidthForFlow (fun _ => 0) JSNum.posInf (JSNum.num 0) (JSNum.num 5) = JSNum.nan ∧
    MainJs.getWidthForFlow (fun _ => 0) JSNum.posInf (JSNum.num 0) (JSNum.num 5) ≠
      JSNum.num 1 := by
  refine ⟨?_, ?_, ?_, ?_⟩ <;>
    norm_num [MainJs.getColorForFlow, MainJs.getWidthForFlow, MainJs.colorFromNormalized,
      MainJs.widthFromNormalized, MainJs.normalizedFlow, MainJs.findStopPair, MainJs.colorStops,
      JSNum.ge, JSNum.le, JSNum.log, JSNum.sub, JSNum.neg, JSNum.add, JSNum.mul, JSNum.div,
      JSNum.round, JSNum.toStr] <;> decide

/-- C4 (amended): with an empty dataset (`numTimes == 0` or
`numFeatures == 0`) the FlowRange indeed remains {min: +∞, max: 0}; the
mapper returns the neutral style for every value ≤ 0, but for positive
values it returns "rgb(NaN, NaN, NaN)" and width NaN rather than the
neutral style. -/
theorem empty_dataset_range_and_neutral (ids : List String) (flow : List (List ℚ))
    (vel dep : Option (List (List ℚ))) (numTimes numFeatures : ℕ) (lg : ℚ → ℚ) (q : ℚ) :
    (processData ids flow vel dep 0 numFeatures).minFlowValue = JSNum.posInf ∧
    (processData ids flow vel dep 0 numFeatures).maxFlowValue = JSNum.num 0 ∧
    (processData ids flow vel dep numTimes 0).minFlowValue = JSNum.posInf ∧
    (processData ids flow vel dep numTimes 0).maxFlowValue = JSNum.num 0 ∧
    (q ≤ 0 →
      MainJs.getColorForFlow lg JSNum.posInf (JSNum.num 0) (JSNum.num q) = "#94a3b8" ∧
      MainJs.getWidthForFlow lg JSNum.posInf (JSNum.num 0) (JSNum.num q) = JSNum.num 1) ∧
    (0 < q →
      MainJs.getColorForFlow lg JSNum.posInf (JSNum.num 0) (JSNum.num q) = "rgb(NaN, NaN, NaN)" ∧
      MainJs.getWidthForFlow lg JSNum.posInf (JSNum.num 0) (JSNum.num q) = JSNum.nan) := by
  refine ⟨rfl, rfl,
    (foldl_stepTime_zero_features_extrema ids flow vel dep (List.range numTimes) _).2,
    (foldl_stepTime_zero_features_extrema ids flow vel dep (List.range numTimes) _).1,
    ?_, ?_⟩
  · intro hq
    have hle : JSNum.le (JSNum.num q) (JSNum.num 0) = true := by
      simp [JSNum.le, hq]
    exact ⟨by simp [MainJs.getColorForFlow, hle], by simp [MainJs.getWidthForFlow, hle]⟩
  · intro hq
    have hle : JSNum.le (JSNum.num q) (JSNum.num 0) = false := by
      simp [JSNum.le, not_le.mpr hq]
    constructor
    · rw [show MainJs.getColorForFlow lg JSNum.posInf (JSNum.num 0) (JSNum.num q) =
        MainJs.colorFromNormalized (MainJs.normalizedFlow lg JSNum.posInf (JSNum.num 0) (JSNum.num q)) from by
          simp [MainJs.getColorForFlow, hle]]
      rw [normalizedFlow_empty_range lg q hq]
      exact colorFromNormalized_nan
    · rw [show MainJs.getWidthForFlow lg JSNum.posInf (JSNum.num 0) (JSNum.num q) =
        MainJs.widthFromNormalized (MainJs.normalizedFlow lg JSNum.posInf (JSNum.num 0) (JSNum.num q)) from by
          simp [MainJs.getWidthForFlow, hle]]
      rw [normalizedFlow_empty_range lg q hq]
      exact widthFromNormalized_special.1

/-- C4 witness: the amended statement applied at concrete inputs —
empty load, value 0 (neutral branch) and value 2 (NaN branch). -/
theorem empty_dataset_range_and_neutral_witness :
    (0:ℚ) ≤ 0 ∧
    MainJs.getColorForFlow (fun _ => 1) JSNum.posInf (JSNum.num 0) (JSNum.num 0) = "#94a3b8" ∧
    (0:ℚ) < 2 ∧
    MainJs.getWidthForFlow (fun _ => 1) JSNum.posInf (JSNum.num 0) (JSNum.num 2) = JSNum.nan ∧
    (processData [] [] none none 0 0).minFlowValue = JSNum.posInf ∧
    (processData [] [] none none 3 0).maxFlowValue = JSNum.num 0 :=
  ⟨le_refl 0,
   ((empty_dataset_range_and_neutral [] [] none none 0 0 (fun _ => 1) 0).2.2.2.2.1 (le_refl 0)).1,
   by norm_num,
   ((empty_dataset_range_and_neutral [] [] none none 0 0 (fun _ => 1) 2).2.2.2.2.2 (by norm_num)).2,
   (empty_dataset_range_and_neutral [] [] none none 0 0 (fun _ => 1) 0).1,
   (empty_dataset_range_and_neutral [] [] none none 3 0 (fun _ => 1) 0).2.2.2.1⟩

/-- C9: `updatePlot` (chart extraction plus client-side resampling)
leaves the shared snapshot untouched: whenever it succeeds, the
resulting module state has the same `timeSteps`, `currentTimeIndex` and
series tables as before the call. -/
theorem updatePlot_preserves_shared_state (g : GlobalState) (r : GlobalState × Option ChartData)
    (h : updatePlot g = Except.ok r) :
    r.1.timeSteps = g.timeSteps ∧ r.1.currentTimeIndex = g.currentTimeIndex ∧
    r.1.flowData = g.flowData ∧ r.1.velocityData = g.velocityData ∧
    r.1.depthData = g.depthData := by
  have hg : r.1 = g := by
    unfold updatePlot at h
    split at h
    · have := (Except.ok.injEq _ _).mp h
      rw [← this]
    · split at h
      · exact absurd h (by simp)
      · have := (Except.ok.injEq _ _).mp h
        rw [← this]
  rw [hg]
  exact ⟨rfl, rfl, rfl, rfl, rfl⟩

/-- C9 witness: a concrete one-slice state with an open plot at
interval 1; `updatePlot` succeeds and preserves every shared field. -/
theorem updatePlot_preserves_shared_state_witness :
    updatePlot
        { timeSteps := ["t0"], currentTimeIndex := 0, isPlaying := false,
          flowData := [[("wb-1", 5)]], velocityData := [], depthData := [],
          plotState := ⟨some "wb-1", true, true, true, 1⟩ } =
      Except.ok
        ({ timeSteps := ["t0"], currentTimeIndex := 0, isPlaying := false,
           flowData := [[("wb-1", 5)]], velocityData := [], depthData := [],
           plotState := ⟨some "wb-1", true, true, true, 1⟩ }, some ⟨[0], some [5], none, none⟩) ∧
    ({ timeSteps := ["t0"], currentTimeIndex := 0, isPlaying := false,
       flowData := [[("wb-1", 5)]], velocityData := [], depthData := [],
       plotState := ⟨some "wb-1", true, true, true, 1⟩ } : GlobalState).timeSteps = ["t0"] := by
  refine ⟨rfl, ?_⟩
  exact (updatePlot_preserves_shared_state
    { timeSteps := ["t0"], currentTimeIndex := 0, isPlaying := false,
      flowData := [[("wb-1", 5)]], velocityData := [], depthData := [],
      plotState := ⟨some "wb-1", true, true, true, 1⟩ }
    ({ timeSteps := ["t0"], currentTimeIndex := 0, isPlaying := false,
       flowData := [[("wb-1", 5)]], velocityData := [], depthData := [],
       plotState := ⟨some "wb-1", true, true, true, 1⟩ }, some ⟨[0], some [5], none, none⟩)
    rfl).1

end AnimatedMap
